import Mathlib

/-!
Verification of the core logic of the anime-metadata updater.

This file gives a shallow embedding, in Lean 4, of the pure content of the
updater's core modules:

  * src/utils/language_utils.py   (appears_to_be_french, clean_title_for_api)
  * src/utils/folder_utils.py     (get_folder_subset)
  * src/api/jikan_api.py          (_apply_rate_limits, make_request, search_anime)
  * src/api/youtube_api.py        (search_trailer)
  * src/processors/nfo_processor.py (process_nfo_file, _update_metadata,
                                     _translate_descriptions)
  * src/processors/episode_processor.py (process_episode_nfo)
  * src/core/updater.py           (_process_with_folder_limits)

External effects are made explicit: outbound HTTP calls become oracle
functions passed as arguments, wall-clock time becomes an explicit rational
clock threaded through a state, and the XML document is a list of
tag/text children of the root element.  Statements about the behaviour of
the code are proved after all the definitions.
-/

namespace AnimeMeta

/-! ## String primitives with Python semantics -/

/-- Python str.lower restricted to the alphabets the heuristic can meet:
ASCII letters and the Latin-1 uppercase letters (the accented French
letters).  Other characters are returned unchanged. -/
def pyLowerChar (c : Char) : Char :=
  if 'A' ≤ c ∧ c ≤ 'Z' then Char.ofNat (c.toNat + 32)
  else if 'À' ≤ c ∧ c ≤ 'Þ' ∧ c ≠ '×' then Char.ofNat (c.toNat + 32)
  else c

/-- Python str.lower on a whole string. -/
def pyLower (s : String) : String := ⟨s.data.map pyLowerChar⟩

/-- Whether the list n is a prefix of the list h (on characters). -/
def isPre : List Char → List Char → Bool
  | [], _ => true
  | _ :: _, [] => false
  | a :: as, b :: bs => a = b && isPre as bs

/-- Whether needle occurs as a contiguous sublist of hay. -/
def hasSub : List Char → List Char → Bool
  | [], needle => needle.isEmpty
  | h :: t, needle => isPre needle (h :: t) || hasSub t needle

/-- Python substring containment: needle in hay. -/
def pyInStr (needle hay : String) : Bool := hasSub hay.data needle.data

/-- Python str.strip(): drop whitespace from both ends. -/
def pyStrip (s : String) : String :=
  ⟨((s.data.dropWhile Char.isWhitespace).reverse.dropWhile Char.isWhitespace).reverse⟩

/-- Python single-character str.replace. -/
def pyReplaceChar (s : String) (a b : Char) : String :=
  ⟨s.data.map (fun c => if c = a then b else c)⟩

/-! ## language_utils.py -/

/-- The fixed indicator list of appears_to_be_french: space-surrounded
French function words and accented characters. -/
def french_indicators : List String :=
  [" le ", " la ", " les ", " des ", " un ", " une ", " du ", " de la ",
   " à ", " est ",
   "ç", "é", "è", "ê", "â", "ô", "î", "û", "ë", "ï", "ü"]

/-- Number of indicators from the fixed list that occur in the lower-cased
text (each indicator is counted at most once, as in the Python generator
sum over the indicator list). -/
def french_indicator_count (text : String) : ℕ :=
  (french_indicators.filter (fun ind => pyInStr ind (pyLower text))).length

/-- appears_to_be_french from language_utils.py: empty text is not French;
otherwise the text is considered French when strictly more than 2
indicators are found. -/
def appears_to_be_french (text : String) : Bool :=
  if text = "" then false
  else decide (2 < french_indicator_count text)

/-- clean_title_for_api from language_utils.py: replace each colon with a
space, each multiplication sign with the letter x, then strip. -/
def clean_title_for_api (title : String) : String :=
  pyStrip (pyReplaceChar (pyReplaceChar title ':' ' ') '×' 'x')

/-! ## folder_utils.py -/

/-- get_folder_subset from folder_utils.py.  Returns the selected slice,
the number of folders skipped by the offset clamp and the number skipped
by the limit.  The Python slice folders[start:end] is (drop start, then
take end - start). -/
def get_folder_subset {α : Type} (folders : List α) (offset : ℕ) (max_folders : ℕ) :
    List α × ℕ × ℕ :=
  let total_folders := folders.length
  let start_index := min offset total_folders
  let skipped_offset := start_index
  if 0 < max_folders then
    let end_index := min (start_index + max_folders) total_folders
    let skipped_limit := total_folders - end_index
    ((folders.drop start_index).take (end_index - start_index), skipped_offset, skipped_limit)
  else
    ((folders.drop start_index).take (total_folders - start_index), skipped_offset, 0)

/-! ## youtube_api.py -/

/-- One item of a YouTube search response (the fields the code reads). -/
structure YtItem where
  videoId : String
  videoTitle : String
deriving DecidableEq

/-- The query parameters search_trailer sends to the YouTube Data API. -/
structure YtParams where
  part : String
  maxResults : ℕ
  q : String
  videoOnly : String
  order : String
  key : String
deriving DecidableEq

/-- The search query string built by search_trailer. -/
def trailer_search_query (title : String) : String :=
  title ++ " official trailer anime"

/-- The parameter dictionary built by search_trailer. -/
def trailer_search_params (title apiKey : String) : YtParams :=
  { part := "snippet"
    maxResults := 5
    q := trailer_search_query title
    videoOnly := "video"
    order := "viewCount"
    key := apiKey }

/-- search_trailer from youtube_api.py.  The outbound HTTP call is the
oracle response; a none response stands for a non-200 status, a network
failure or any exception while reading the body (all of which the code
turns into a None return).  An absent or empty API key short-circuits to
none before any call. -/
def search_trailer (youtube_api_key : Option String) (title : String)
    (response : YtParams → Option (List YtItem)) : Option String :=
  match youtube_api_key with
  | none => none
  | some k =>
    if k = "" then none
    else
      match response (trailer_search_params title k) with
      | none => none
      | some [] => none
      | some (top :: _) => some top.videoId

/-! ## Jikan data model

The pieces of a Jikan search response that _update_metadata reads. -/

/-- A genre or theme object; the code reads the name field with .get, so
it may be missing, and an empty string is falsy in the truthiness tests
the code performs before using it. -/
structure NamedEntry where
  name : Option String
deriving DecidableEq

/-- Value of a truthy name: none when the name is missing or empty (both
are skipped by the if-name guards in the code). -/
def truthy_name (t : NamedEntry) : Option String :=
  match t.name with
  | some s => if s = "" then none else some s
  | none => none

/-- One anime record of a search response.  The score field is kept as the
string str(score) the code compares and writes; none stands for a missing
score or the falsy score 0, both of which fail the if-score guard. -/
structure AnimeData where
  score : Option String
  genres : List NamedEntry
  themes : List NamedEntry
deriving DecidableEq

/-- A parsed 200 response body: the data list. -/
structure SearchResponse where
  data : List AnimeData
deriving DecidableEq

/-! ## jikan_api.py: the rate gate

Wall-clock time is an explicit rational number.  The model is the
idealized schedule in which time.sleep(w) advances the clock by exactly w
and every other step takes zero time, which is the reference behaviour the
temporal claims quantify over.  The request history and the clock form the
limiter state. -/

/-- Python min over a nonempty list (0 for the empty list, which the code
never reaches because it only takes min of a list of length at least 60). -/
def pymin : List ℚ → ℚ
  | [] => 0
  | h :: t => t.foldl min h

/-- Python max over a nonempty list (0 for the empty list, unreached). -/
def pymax : List ℚ → ℚ
  | [] => 0
  | h :: t => t.foldl max h

/-- State of the JikanAPI limiter: the timestamps of recent requests and
the current wall-clock time. -/
structure RLState where
  reqs : List ℚ
  now : ℚ
deriving DecidableEq

/-- Jikan per-minute cap (jikan_minute_limit = 60). -/
def jikan_minute_limit : ℕ := 60

/-- Jikan per-second cap (jikan_second_limit = 3). -/
def jikan_second_limit : ℕ := 3

/-- _apply_rate_limits from jikan_api.py.  Returns the wall-clock time at
which the gate releases the caller together with the request-history list
as the gate leaves it.  First prune entries older than 60 seconds; if the
pruned history has reached the per-minute cap, sleep
60 - (now - oldest) + 0.1 and clear the history; otherwise, if any entry
lies in the trailing 1/3 second, sleep the remaining fraction of that
interval. -/
def apply_rate_limits (s : RLState) : ℚ × List ℚ :=
  let pruned := s.reqs.filter (fun t => decide (s.now - t < 60))
  if jikan_minute_limit ≤ pruned.length then
    let oldest := pymin pruned
    let wait_time := 60 - (s.now - oldest) + 1/10
    (s.now + wait_time, [])
  else
    let recent := pruned.filter (fun t => decide (s.now - t < 1 / (jikan_second_limit : ℚ)))
    if recent.isEmpty then (s.now, pruned)
    else
      let wait_time := 1 / (jikan_second_limit : ℚ) - (s.now - pymax recent)
      (if 0 < wait_time then s.now + wait_time else s.now, pruned)

/-- One successful pass of make_request: run the gate, then record the
caller's own timestamp (taken after the gate returns) at the end of the
history.  Returns the new state and the recorded timestamp. -/
def make_request_step (s : RLState) : RLState × ℚ :=
  let g := apply_rate_limits s
  (⟨g.2 ++ [g.1], g.1⟩, g.1)

/-- Limiter state after n back-to-back successful calls, starting from an
idle client at time 0. -/
def call_state : ℕ → RLState
  | 0 => ⟨[], 0⟩
  | n + 1 => (make_request_step (call_state n)).1

/-- Wall-clock timestamp of call n (0-based) in that schedule. -/
def call_time (n : ℕ) : ℚ := (call_state (n + 1)).now

/-- Start time of minute-window block q in the back-to-back schedule:
every 60 calls the per-minute branch fires and restarts the window 60.1
seconds after the block's first call. -/
def block_base (q : ℕ) : ℚ := (601 / 10) * q

/-- The request-history list after the first k calls of block q: an
arithmetic progression with step 1/3 starting at the block base. -/
def block_list (q : ℕ) : ℕ → List ℚ
  | 0 => []
  | k + 1 => block_list q k ++ [block_base q + (k : ℚ) / 3]

/-- Closed form of the call timestamps in the back-to-back schedule. -/
def sched_time (n : ℕ) : ℚ := block_base (n / 60) + ((n % 60 : ℕ) : ℚ) / 3

/-! ## jikan_api.py: make_request with the 429 retry discipline

The HTTP outcomes of the successive attempts are an oracle indexed by the
attempt number.  Fuel bounds the recursion depth; a none result means the
call has not returned within that many attempts (the Python recursion
would still be running), never that it failed. -/

/-- Outcome of one outbound GET as make_request distinguishes them. -/
inductive JikanOutcome where
  | ok (r : SearchResponse)
  | throttled
  | httpError (code : ℕ)
  | netError
deriving DecidableEq

/-- make_request from jikan_api.py.  Per attempt: run the gate, append the
fresh timestamp; on 429 sleep 5 seconds, pop the just-recorded timestamp
if it is still the last entry, and recurse from the gate; on another
non-200 status or a network error return none (no data); on 200 return
the parsed body.  Batch mode is off (the claims quantify over the default
configuration). -/
def jikan_make_request (fuel : ℕ) (responses : ℕ → JikanOutcome) (attempt : ℕ)
    (s : RLState) : Option (Option SearchResponse × RLState) :=
  match fuel with
  | 0 => none
  | fuel + 1 =>
    let g := apply_rate_limits s
    let t := g.1
    let reqs1 := g.2 ++ [t]
    match responses attempt with
    | .ok r => some (some r, ⟨reqs1, t⟩)
    | .throttled =>
      let reqs2 := if !reqs1.isEmpty && reqs1.getLast? == some t then reqs1.dropLast else reqs1
      jikan_make_request fuel responses (attempt + 1) ⟨reqs2, t + 5⟩
    | .httpError _ => some (none, ⟨reqs1, t⟩)
    | .netError => some (none, ⟨reqs1, t⟩)

/-- The attempt oracle used by the C5 witness: one 429, then success with
an empty data list. -/
def c5_oracle : ℕ → JikanOutcome :=
  fun i => if i = 0 then .throttled else .ok ⟨[]⟩

/-! ## The XML document model

An NFO document is its root tag plus the list of direct children the code
manipulates, each a tag with an optional text.  ElementTree operations
used by the code: find (first child with a tag), findall, SubElement
(append a child), remove inside a findall loop (drop every child with the
tag), and setting the text of a found element (update the first child
with that tag in place). -/

/-- A direct child element of the document root. -/
structure XElem where
  tag : String
  text : Option String
deriving DecidableEq

/-- The document: root tag and direct children, in document order. -/
structure XDoc where
  root_tag : String
  children : List XElem
deriving DecidableEq

/-- root.find(tag): the first child with the given tag. -/
def xfind (d : XDoc) (tag : String) : Option XElem :=
  d.children.find? (fun e => e.tag == tag)

/-- Texts of root.findall(tag), in document order. -/
def find_all_texts (d : XDoc) (tag : String) : List (Option String) :=
  (d.children.filter (fun e => e.tag == tag)).map (fun e => e.text)

/-- ET.SubElement(root, tag) followed by setting its text. -/
def append_child (d : XDoc) (tag : String) (text : Option String) : XDoc :=
  ⟨d.root_tag, d.children ++ [⟨tag, text⟩]⟩

/-- Set the text of the first child carrying the tag (the element returned
by root.find); no-op when absent. -/
def set_first_text (d : XDoc) (tag : String) (text : Option String) : XDoc :=
  ⟨d.root_tag, go d.children⟩
where
  go : List XElem → List XElem
    | [] => []
    | e :: rest => if e.tag == tag then { e with text := text } :: rest else e :: go rest

/-- Remove every child with the tag (the remove loop over findall). -/
def remove_all (d : XDoc) (tag : String) : XDoc :=
  ⟨d.root_tag, d.children.filter (fun e => !(e.tag == tag))⟩

/-- Append one child per entry with a truthy name, mirroring the for-loops
that create genre and tag elements. -/
def add_named_children (d : XDoc) (tag : String) (entries : List NamedEntry) : XDoc :=
  entries.foldl
    (fun acc g =>
      match truthy_name g with
      | some n => append_child acc tag (some n)
      | none => acc)
    d

/-- Python truthiness of an element text: None and the empty string are
falsy. -/
def truthy_text : Option String → Bool
  | none => false
  | some s => !(s == "")

/-- Deterministic serialization of a child element. -/
def serialize_elem (e : XElem) : String :=
  "<" ++ e.tag ++ ">" ++ (match e.text with | none => "" | some s => s) ++ "</" ++ e.tag ++ ">"

/-- Deterministic serialization of the document, standing for the bytes
ET.tostring produces for the tree. -/
def serialize (d : XDoc) : String :=
  "<" ++ d.root_tag ++ ">" ++ String.join (d.children.map serialize_elem) ++ "</" ++ d.root_tag ++ ">"

/-- The bytes write_xml_file would emit for the document (fixed
declaration line, then the serialized tree; no byte-order mark). -/
def write_output (d : XDoc) : String :=
  "<?xml version=\"1.0\" encoding=\"utf-8\" standalone=\"yes\"?>\n" ++ serialize d

/-! ## nfo_processor.py -/

/-- Whether Python float(s) accepts the string: optional surrounding
whitespace and sign, digits with at most one decimal point and at least
one digit.  (Exponent, inf and nan forms are out of scope; no claim
touches them.)  Only the success of the parse matters to the code: the
parsed value feeds a condition that is used for logging alone, but a
parse failure raises ValueError, which the except-block of
_update_metadata turns into an unchanged-document False return. -/
def is_float_lit (s : String) : Bool :=
  let t := (pyStrip s).data
  let core :=
    match t with
    | c :: rest => if c = '-' || c = '+' then rest else t
    | [] => t
  core.all (fun c => c.isDigit || c == '.') &&
    decide ((core.filter (fun c => c == '.')).length ≤ 1) &&
    core.any Char.isDigit

/-- Whether the rating element, if present with nonempty text, carries a
text float() accepts.  When this fails, _update_metadata raises inside
has_rating and returns False having touched nothing. -/
def rating_text_ok (d : XDoc) : Bool :=
  match xfind d "rating" with
  | some e =>
    match e.text with
    | some s => s == "" || is_float_lit s
    | none => true
  | none => true

/-- Set of stored tag texts, as the code builds it: truthy texts of the
tag children. -/
def tag_text_set (d : XDoc) : Finset String :=
  ((d.children.filter (fun e => e.tag == "tag")).filterMap
    (fun e => match e.text with
      | some s => if s = "" then none else some s
      | none => none)).toFinset

/-- Set of truthy theme names of the fetched record. -/
def theme_name_set (themes : List NamedEntry) : Finset String :=
  (themes.filterMap truthy_name).toFinset

/-- The rating block of _update_metadata: when a truthy score is present,
create the rating element if missing, and rewrite its text whenever the
stored text differs from str(score) or force-update is set. -/
def rating_step (doc : XDoc) (score : Option String) (force_update : Bool) : XDoc × Bool :=
  match score with
  | none => (doc, false)
  | some score_str =>
    match xfind doc "rating" with
    | none => (append_child doc "rating" (some score_str), true)
    | some e =>
      if e.text = some score_str ∧ ¬force_update then (doc, false)
      else (set_first_text doc "rating" (some score_str), true)

/-- The genre block of _update_metadata: when the fetched genre list is
non-empty, remove every genre element, append one element per truthy
fetched name, and mark changed — with no comparison against the stored
set. -/
def genre_step (st : XDoc × Bool) (genres : List NamedEntry) : XDoc × Bool :=
  if genres.isEmpty then st
  else (add_named_children (remove_all st.1 "genre") "genre" genres, true)

/-- The theme block of _update_metadata: when the fetched theme list is
non-empty and the stored tag set differs from the fetched name set (or
force-update is set), replace all tag elements and mark changed. -/
def tag_step (st : XDoc × Bool) (themes : List NamedEntry) (force_update : Bool) :
    XDoc × Bool :=
  if themes.isEmpty then st
  else
    if tag_text_set st.1 = theme_name_set themes ∧ ¬force_update then st
    else (add_named_children (remove_all st.1 "tag") "tag" themes, true)

/-- The trailer block of _update_metadata: with a resolved id, format the
fixed plugin URI and create the trailer element, or rewrite it whenever
the stored text differs or force-update is set. -/
def trailer_step (st : XDoc × Bool) (resolved_youtube_id : Option String)
    (force_update : Bool) : XDoc × Bool :=
  match resolved_youtube_id with
  | none => st
  | some yid =>
    let trailer_url := "plugin://plugin.video.youtube/play/?video_id=" ++ yid
    match xfind st.1 "trailer" with
    | none => (append_child st.1 "trailer" (some trailer_url), true)
    | some e =>
      if e.text = some trailer_url ∧ ¬force_update then st
      else (set_first_text st.1 "trailer" (some trailer_url), true)

/-- _update_metadata from nfo_processor.py, as a pure function of the
document, the search response (none when search_anime returned None), the
resolved YouTube id (the combined result of extract_youtube_id and the
search_trailer fallback, none also when no YouTube client is configured)
and the force-update flag.  Returns the mutated document and the
changes-made flag.  A rating text float() rejects raises before any block
runs and the except-handler returns the document unchanged; otherwise the
four blocks run in source order: rating, genres, tags (themes),
trailer. -/
def update_metadata (doc : XDoc) (response : Option SearchResponse)
    (resolved_youtube_id : Option String) (force_update : Bool) : XDoc × Bool :=
  if !rating_text_ok doc then (doc, false)
  else
    match response with
    | none => (doc, false)
    | some resp =>
      match resp.data with
      | [] => (doc, false)
      | anime :: _ =>
        trailer_step
          (tag_step
            (genre_step (rating_step doc anime.score force_update) anime.genres)
            anime.themes force_update)
          resolved_youtube_id force_update

/-- translate_text from claude_api.py, given the provider call as an
oracle: empty text short-circuits to None before any call; otherwise the
oracle's answer stands for the stripped response text, or none for any
exception. -/
def translate_text (oracle : String → Option String) (text : String) : Option String :=
  if text = "" then none else oracle text

/-- _translate_descriptions from nfo_processor.py: for each of plot and
outline that exists with truthy text, when the stripped text does not
already appear to be French, translate the stripped text and, when the
result is truthy, overwrite the field (with no comparison against the
stored value) and mark changed. -/
def translate_descriptions (doc : XDoc) (oracle : String → Option String) : XDoc × Bool :=
  let plot := xfind doc "plot"
  let outline := xfind doc "outline"
  if !truthy_text (plot.bind (fun e => e.text)) && !truthy_text (outline.bind (fun e => e.text)) then
    (doc, false)
  else
    let st1 :=
      match plot with
      | some e =>
        match e.text with
        | some s =>
          if s = "" then (doc, false)
          else
            let the_plot := pyStrip s
            if appears_to_be_french the_plot then (doc, false)
            else
              match translate_text oracle the_plot with
              | some fp => if fp = "" then (doc, false) else (set_first_text doc "plot" (some fp), true)
              | none => (doc, false)
        | none => (doc, false)
      | none => (doc, false)
    match outline with
    | some e =>
      match e.text with
      | some s =>
        if s = "" then st1
        else
          let the_outline := pyStrip s
          if appears_to_be_french the_outline then st1
          else
            match translate_text oracle the_outline with
            | some fo => if fo = "" then st1 else (set_first_text st1.1 "outline" (some fo), true)
            | none => st1
      | none => st1
    | none => st1

/-- The boolean mode flags of the options dictionary (all default false). -/
structure Options where
  translate_only : Bool := false
  rating_only : Bool := false
  skip_translate : Bool := false
  force_update : Bool := false
  sync_mpaa : Bool := false
  remove_mpaa : Bool := false
  translate_episodes : Bool := false
  episodes_only : Bool := false
  batch_mode : Bool := false
deriving DecidableEq

/-- An NFO file on disk: either malformed bytes that make the XML parser
raise ParseError, or a well-formed tree.  A file value left untouched by a
run means its bytes on disk are untouched (no write is issued). -/
inductive NfoFile where
  | malformed (raw : String)
  | wellFormed (doc : XDoc)
deriving DecidableEq

/-- The bytes of the file as the run leaves them on disk. -/
def nfo_bytes : NfoFile → String
  | .malformed raw => raw
  | .wellFormed d => write_output d

/-- Outcome of processing one file: the file as left on disk, the changed
flag returned to the caller, and which statistics counters the call
incremented (errors, processed_files). -/
structure FileResult where
  file : NfoFile
  changed : Bool
  error : Bool
  processed : Bool
deriving DecidableEq

/-- search_anime from jikan_api.py reduced to its data dependency: the
query uses the cleaned title, and the oracle maps the cleaned query to
the final result of make_request (none for no data). -/
def search_anime (jikan_oracle : String → Option SearchResponse) (title : String) :
    Option SearchResponse :=
  jikan_oracle (clean_title_for_api title)

/-- process_nfo_file from nfo_processor.py.  The three provider clients
are oracles; a none translate stands for claude_api being None.  A
malformed file takes the except-ParseError path: one errors increment,
False, no write.  A document without a truthy title is skipped before the
processed_files increment.  Otherwise metadata is updated unless
translate-only, descriptions are translated when translation is enabled,
the file is rewritten only when changed, and processed_files is
incremented. -/
def process_nfo_file (opts : Options) (jikan_oracle : String → Option SearchResponse)
    (translate : Option (String → Option String)) (ytid_of : String → Option String)
    (file : NfoFile) : FileResult :=
  match file with
  | .malformed raw => ⟨.malformed raw, false, true, false⟩
  | .wellFormed doc =>
    match xfind doc "title" with
    | none => ⟨.wellFormed doc, false, false, false⟩
    | some te =>
      match te.text with
      | none => ⟨.wellFormed doc, false, false, false⟩
      | some ttxt =>
        if ttxt = "" then ⟨.wellFormed doc, false, false, false⟩
        else
          let title := pyStrip ttxt
          let st1 :=
            if opts.translate_only then (doc, false)
            else update_metadata doc (search_anime jikan_oracle title) (ytid_of title)
              opts.force_update
          let should_translate := !opts.rating_only && !opts.skip_translate && translate.isSome
          let st2 :=
            match translate with
            | some oracle => if should_translate then translate_descriptions st1.1 oracle else st1
            | none => st1
          ⟨.wellFormed st2.1, st1.2 || st2.2, false, true⟩

/-! ## episode_processor.py -/

/-- The default-mode test of EpisodeProcessor: every mode flag unset. -/
def episode_is_default_mode (o : Options) : Bool :=
  !o.translate_only && !o.rating_only && !o.skip_translate && !o.sync_mpaa &&
    !o.remove_mpaa && !o.translate_episodes && !o.episodes_only && !o.batch_mode

/-- process_episode_nfo from episode_processor.py.  parent_mpaa is the
result of _get_mpaa_from_tvshow on the sibling tvshow.nfo (none when that
file is absent or carries no mpaa).  In default mode a truthy parent mpaa
is inserted or updated; then, when translation is enabled, the title and
the plot are translated under the French guard, and the translated value
is written only when it is truthy AND differs from the stored
(unstripped) text — the comparison the show-level pass does not make. -/
def process_episode_nfo (opts : Options) (translate : Option (String → Option String))
    (parent_mpaa : Option String) (file : NfoFile) : FileResult :=
  match file with
  | .malformed raw => ⟨.malformed raw, false, true, false⟩
  | .wellFormed doc =>
    if doc.root_tag ≠ "episodedetails" then ⟨.wellFormed doc, false, false, false⟩
    else
      let st0 :=
        if episode_is_default_mode opts then
          match parent_mpaa with
          | some v =>
            if v = "" then (doc, false)
            else
              match xfind doc "mpaa" with
              | none => (append_child doc "mpaa" (some v), true)
              | some e => if e.text = some v then (doc, false) else (set_first_text doc "mpaa" (some v), true)
          | none => (doc, false)
        else (doc, false)
      let should_translate := !opts.skip_translate && !opts.rating_only && translate.isSome
      let st2 :=
        match translate with
        | some oracle =>
          if should_translate then
            let st1 :=
              match xfind st0.1 "title" with
              | some e =>
                match e.text with
                | some s =>
                  if s = "" ∨ pyStrip s = "" then st0
                  else if appears_to_be_french s then st0
                  else
                    match translate_text oracle (pyStrip s) with
                    | some tr =>
                      if tr ≠ "" ∧ some tr ≠ e.text then (set_first_text st0.1 "title" (some tr), true)
                      else st0
                    | none => st0
                | none => st0
              | none => st0
            match xfind st1.1 "plot" with
            | some e =>
              match e.text with
              | some s =>
                if s = "" ∨ pyStrip s = "" then st1
                else if appears_to_be_french s then st1
                else
                  match translate_text oracle (pyStrip s) with
                  | some tr =>
                    if tr ≠ "" ∧ some tr ≠ e.text then (set_first_text st1.1 "plot" (some tr), true)
                    else st1
                  | none => st1
              | none => st1
            | none => st1
          else st0
        | none => st0
      ⟨.wellFormed st2.1, st2.2, false, true⟩

/-! ## updater.py: the windowed run -/

/-- The run statistics counters the claims read. -/
structure RunStats where
  processed_files : ℕ
  errors : ℕ
  folders_processed : ℕ
  folders_skipped_offset : ℕ
  folders_skipped_limit : ℕ
deriving DecidableEq

/-- _process_with_folder_limits from updater.py over folders that contain
only a root record (an empty episode list makes the per-folder episode
loop a no-op): select the offset/limit window of the sorted candidate
list, then process each selected folder's tvshow.nfo in order, counting
errors and processed files; the run always reaches the summary, returning
the final statistics and the files as left on disk. -/
def process_with_folder_limits (opts : Options)
    (jikan_oracle : String → Option SearchResponse)
    (translate : Option (String → Option String)) (ytid_of : String → Option String)
    (folders : List NfoFile) (folder_offset max_folders : ℕ) :
    List NfoFile × RunStats :=
  let sel := get_folder_subset folders folder_offset max_folders
  let results := sel.1.map (process_nfo_file opts jikan_oracle translate ytid_of)
  (results.map (fun r => r.file),
   { processed_files := (results.filter (fun r => r.processed)).length
     errors := (results.filter (fun r => r.error)).length
     folders_processed := results.length
     folders_skipped_offset := sel.2.1
     folders_skipped_limit := sel.2.2 })

/-! ## Concrete fixtures used by counterexamples and witnesses -/

/-- A stored record whose rating text is not a float literal. -/
def c2_bad_doc : XDoc :=
  ⟨"tvshow", [⟨"title", some "A"⟩, ⟨"rating", some "unrated"⟩, ⟨"genre", some "Action"⟩]⟩

/-- A response whose only record carries a non-empty genre list. -/
def c2_resp : SearchResponse := ⟨[⟨none, [⟨some "Drama"⟩], []⟩]⟩

/-- A stored record with genre set Action, Drama. -/
def c2_doc : XDoc :=
  ⟨"tvshow", [⟨"title", some "T"⟩, ⟨"genre", some "Action"⟩, ⟨"genre", some "Drama"⟩]⟩

/-- A response fetching the identical genre set Action, Drama. -/
def c2_resp_same : SearchResponse := ⟨[⟨none, [⟨some "Action"⟩, ⟨some "Drama"⟩], []⟩]⟩

/-- A show record with only a title. -/
def c1_doc : XDoc := ⟨"tvshow", [⟨"title", some "A"⟩]⟩

/-- The provider response used by the C1 counterexample: no score, one
genre, no themes. -/
def c1_resp : SearchResponse := ⟨[⟨none, [⟨some "Action"⟩], []⟩]⟩

/-- The five-folder batch of C6: folder 3 carries a malformed root
record, the others are well-formed and need no provider data. -/
def c6_folders : List NfoFile :=
  [.wellFormed ⟨"tvshow", [⟨"title", some "A"⟩]⟩,
   .wellFormed ⟨"tvshow", [⟨"title", some "B"⟩]⟩,
   .malformed "<tvshow><title>C</tvshow",
   .wellFormed ⟨"tvshow", [⟨"title", some "D"⟩]⟩,
   .wellFormed ⟨"tvshow", [⟨"title", some "E"⟩]⟩]

/-- The provider response used by the C1 witness: a score and a theme but
no genres. -/
def c1w_resp : SearchResponse := ⟨[⟨some "7.5", [], [⟨some "School"⟩]⟩]⟩

/-! ## Theorems -/

/-- C4: for every folder list of length L, every offset O and every limit
M, get_folder_subset returns a subset of length
min (L - O) (if M = 0 then L - O else M) with truncated subtraction (so
M = 0 takes everything from the offset to the end and an offset past the
end takes nothing), skipped_by_offset = min O L, and
skipped_by_offset + skipped_by_limit + length of the subset = L. -/
theorem get_folder_subset_window {α : Type} (folders : List α) (O M : ℕ) :
    (get_folder_subset folders O M).1.length
        = min (folders.length - O) (if M = 0 then folders.length - O else M)
    ∧ (get_folder_subset folders O M).2.1 = min O folders.length
    ∧ (get_folder_subset folders O M).2.1 + (get_folder_subset folders O M).2.2
        + (get_folder_subset folders O M).1.length = folders.length := by
  by_cases hM : M = 0
  · subst hM
    simp [get_folder_subset, List.length_take, List.length_drop]
    all_goals omega
  · have h0 : 0 < M := Nat.pos_of_ne_zero hM
    simp [get_folder_subset, h0, hM, List.length_take, List.length_drop]
    all_goals omega

/-- C7: appears_to_be_french lower-cases the text and counts the
indicators of the fixed list found in it, and returns true exactly when
that count exceeds 2; a text with exactly 3 indicator matches returns
true, a text with exactly 2 returns false. -/
theorem appears_french_boundary :
    (∀ text : String, appears_to_be_french text = decide (2 < french_indicator_count text))
    ∧ appears_to_be_french "évident très ça" = true
    ∧ french_indicator_count "évident très ça" = 3
    ∧ appears_to_be_french "évident très" = false
    ∧ french_indicator_count "évident très" = 2 := by
  refine ⟨fun text => ?_, by decide, by decide, by decide, by decide⟩
  by_cases h : text = ""
  · subst h; decide
  · simp [appears_to_be_french, h]

/-- Characters of the stripped string are characters of the string. -/
theorem mem_pyStrip {c : Char} {s : String} (h : c ∈ (pyStrip s).data) : c ∈ s.data := by
  unfold pyStrip at h
  rw [show (String.mk ((((s.data.dropWhile Char.isWhitespace).reverse).dropWhile
      Char.isWhitespace).reverse)).data
      = (((s.data.dropWhile Char.isWhitespace).reverse).dropWhile Char.isWhitespace).reverse
    from rfl] at h
  rw [List.mem_reverse] at h
  have h2 := (List.dropWhile_sublist (l := (s.data.dropWhile Char.isWhitespace).reverse)
    (p := Char.isWhitespace)).subset h
  rw [List.mem_reverse] at h2
  exact (List.dropWhile_sublist (l := s.data) (p := Char.isWhitespace)).subset h2

/-- C9 (amended): clean_title_for_api replaces each colon with a space
and each multiplication sign with the letter x (not a space), then strips
the result; consequently the normalized query contains neither a colon
nor a multiplication sign. -/
theorem clean_title_no_colon_no_times (title : String) :
    ¬ (':' ∈ (clean_title_for_api title).data) ∧ ¬ ('×' ∈ (clean_title_for_api title).data) := by
  constructor
  · intro h
    have h1 := mem_pyStrip h
    simp only [pyReplaceChar, List.mem_map] at h1
    obtain ⟨a, ⟨b, _, hb⟩, ha⟩ := h1
    by_cases hax : a = '×'
    · rw [hax] at ha; simp at ha
    · rw [if_neg hax] at ha
      subst ha
      by_cases hbc : b = ':'
      · rw [if_pos hbc] at hb; simp at hb
      · rw [if_neg hbc] at hb; exact hbc hb
  · intro h
    have h1 := mem_pyStrip h
    simp only [pyReplaceChar, List.mem_map] at h1
    obtain ⟨a, ⟨b, _, hb⟩, ha⟩ := h1
    by_cases hax : a = '×'
    · rw [if_pos hax] at ha; simp at ha
    · rw [if_neg hax] at ha; exact hax ha

/-- C9 (counterexample): on the title 3×3 Eyes the cleaning step yields
3x3 Eyes — the multiplication sign becomes the letter x, not a space as
the claim states. -/
theorem clean_title_times_counterexample :
    clean_title_for_api "3×3 Eyes" = "3x3 Eyes"
    ∧ clean_title_for_api "3×3 Eyes" ≠ "3 3 Eyes" := by
  constructor
  · decide
  · decide

/-- C8 (counterexample): the query search_trailer sends for a title is
the title followed by " official trailer anime", not " official trailer"
as the claim states. -/
theorem search_trailer_query_counterexample :
    trailer_search_query "X" = "X official trailer anime"
    ∧ trailer_search_query "X" ≠ "X official trailer"
    ∧ (trailer_search_params "X" "K").q ≠ "X official trailer" := by
  refine ⟨rfl, by decide, by decide⟩

/-- C8 (amended): search_trailer issues the query
"(title) official trailer anime" with maxResults 5 ordered by viewCount,
returns the identifier of the first (highest-ranked) result, and returns
none when the provider key is absent or empty, when the call fails, or
when zero results come back. -/
theorem search_trailer_contract :
    (∀ title k, (trailer_search_params title k).maxResults = 5
        ∧ (trailer_search_params title k).order = "viewCount"
        ∧ (trailer_search_params title k).q = title ++ " official trailer anime")
    ∧ (∀ title resp, search_trailer none title resp = none)
    ∧ (∀ title resp, search_trailer (some "") title resp = none)
    ∧ (∀ title k resp, k ≠ "" → resp (trailer_search_params title k) = none →
        search_trailer (some k) title resp = none)
    ∧ (∀ title k resp, k ≠ "" → resp (trailer_search_params title k) = some [] →
        search_trailer (some k) title resp = none)
    ∧ (∀ title k resp (top : YtItem) (rest : List YtItem), k ≠ "" →
        resp (trailer_search_params title k) = some (top :: rest) →
        search_trailer (some k) title resp = some top.videoId) := by
  refine ⟨fun title k => ⟨rfl, rfl, rfl⟩, fun title resp => rfl, fun title resp => rfl,
    fun title k resp hk hr => ?_, fun title k resp hk hr => ?_,
    fun title k resp top rest hk hr => ?_⟩
  · simp [search_trailer, hk, hr]
  · simp [search_trailer, hk, hr]
  · simp [search_trailer, hk, hr]

/-- Witness for C8's amended theorem at a concrete key, title and
response. -/
theorem search_trailer_contract_witness :
    ("K" : String) ≠ ""
    ∧ search_trailer (some "K") "T"
        (fun _ => some [YtItem.mk "abc123" "vt"]) = some "abc123" :=
  ⟨by decide,
   search_trailer_contract.2.2.2.2.2 "T" "K" (fun _ => some [YtItem.mk "abc123" "vt"])
     (YtItem.mk "abc123" "vt") [] (by decide) rfl⟩

/-- The gate is immediate on an empty history. -/
theorem apply_rate_limits_empty (t : ℚ) : apply_rate_limits ⟨[], t⟩ = (t, []) := rfl

/-- Helper for C5: starting from an empty window at time t, k throttled
attempts followed by a success return the parsed body, with the window
holding exactly the successful call's timestamp t + 5k — every 429's
timestamp was popped again, and each retry waited the fixed 5-second
cool-down before re-entering the gate. -/
theorem jikan_throttle_then_ok (k : ℕ) :
    ∀ (a : ℕ) (t : ℚ) (responses : ℕ → JikanOutcome) (r : SearchResponse),
    (∀ i, a ≤ i → i < a + k → responses i = JikanOutcome.throttled) →
    responses (a + k) = JikanOutcome.ok r →
    jikan_make_request (k + 1) responses a ⟨[], t⟩
      = some (some r, ⟨[t + 5 * k], t + 5 * k⟩) := by
  induction k with
  | zero =>
    intro a t responses r _ hok
    rw [Nat.add_zero] at hok
    simp [jikan_make_request, apply_rate_limits_empty, hok]
  | succ k ih =>
    intro a t responses r hthr hok
    have h0 : responses a = JikanOutcome.throttled :=
      hthr a (Nat.le_refl a) (by omega)
    have step : jikan_make_request (k + 1 + 1) responses a ⟨[], t⟩
        = jikan_make_request (k + 1) responses (a + 1) ⟨[], t + 5⟩ := by
      simp [jikan_make_request, apply_rate_limits_empty, h0]
    rw [step]
    have ih2 := ih (a + 1) (t + 5) responses r
      (fun i h1 h2 => hthr i (by omega) (by omega))
      (by rw [show a + 1 + k = a + (k + 1) from by omega]; exact hok)
    have h5 : t + 5 + 5 * (k : ℚ) = t + 5 * ((k + 1 : ℕ) : ℚ) := by push_cast; ring
    rw [ih2, h5]

/-- C5: on HTTP 429 make_request discards the timestamp it just recorded,
waits the fixed 5-second cool-down and retries the same request starting
again from the rate gate, with no attempt bound: as long as every attempt
is throttled the call never returns to the caller (for no recursion depth
does it produce a value, in particular never a failure value), and once
an attempt succeeds after k throttles the caller receives the parsed
body, the window holding only the final timestamp 5k. -/
theorem make_request_throttle_discipline :
    (∀ (fuel attempt : ℕ) (s : RLState) (responses : ℕ → JikanOutcome),
        (∀ i, responses i = JikanOutcome.throttled) →
        jikan_make_request fuel responses attempt s = none)
    ∧ (∀ (k : ℕ) (responses : ℕ → JikanOutcome) (r : SearchResponse),
        (∀ i, i < k → responses i = JikanOutcome.throttled) →
        responses k = JikanOutcome.ok r →
        jikan_make_request (k + 1) responses 0 ⟨[], 0⟩
          = some (some r, ⟨[5 * k], 5 * k⟩)) := by
  constructor
  · intro fuel
    induction fuel with
    | zero => intro attempt s responses _; rfl
    | succ fuel ih =>
      intro attempt s responses hthr
      simp [jikan_make_request, hthr attempt]
      exact ih (attempt + 1) _ responses hthr
  · intro k responses r hthr hok
    have h := jikan_throttle_then_ok k 0 0 responses r
      (fun i h1 h2 => hthr i (by omega)) (by simpa using hok)
    simpa using h

/-- Witness for C5 at one throttled attempt followed by a success. -/
theorem make_request_throttle_discipline_witness :
    (∀ i, i < 1 → c5_oracle i = JikanOutcome.throttled)
    ∧ c5_oracle 1 = JikanOutcome.ok ⟨[]⟩
    ∧ jikan_make_request 2 c5_oracle 0 ⟨[], 0⟩
        = some (some ⟨[]⟩, ⟨[5 * 1], 5 * 1⟩) := by
  have h1 : ∀ i, i < 1 → c5_oracle i = JikanOutcome.throttled := by
    intro i hi
    have : i = 0 := by omega
    subst this
    rfl
  exact ⟨h1, rfl, make_request_throttle_discipline.2 1 c5_oracle ⟨[]⟩ h1 rfl⟩

/-- C10: when the translator returns a non-empty string identical to the
stored text, the show-level description pass still overwrites the field
and reports changed = true (the document value is unchanged, so the
rewrite it triggers is byte-identical), whereas the episode-level pass
additionally compares the returned translation against the current value
and reports changed = false. -/
theorem translation_writeback_asymmetry (oracle : String → Option String) (t : String)
    (h1 : t ≠ "") (h2 : pyStrip t = t) (h3 : appears_to_be_french t = false)
    (h4 : oracle t = some t) :
    translate_descriptions ⟨"tvshow", [⟨"title", some "T"⟩, ⟨"plot", some t⟩]⟩ oracle
        = (⟨"tvshow", [⟨"title", some "T"⟩, ⟨"plot", some t⟩]⟩, true)
    ∧ process_episode_nfo { translate_episodes := true } (some oracle) none
        (.wellFormed ⟨"episodedetails", [⟨"plot", some t⟩]⟩)
        = ⟨.wellFormed ⟨"episodedetails", [⟨"plot", some t⟩]⟩, false, false, true⟩ := by
  constructor
  · unfold translate_descriptions translate_text
    simp [xfind, List.find?, truthy_text, h1, h2, h3, h4, set_first_text, set_first_text.go]
  · unfold process_episode_nfo translate_text episode_is_default_mode
    simp [xfind, List.find?, h1, h2, h3, h4]

/-- Witness for C10 with the identity translator on a concrete English
plot text. -/
theorem translation_writeback_asymmetry_witness :
    ("hello world" : String) ≠ ""
    ∧ pyStrip "hello world" = "hello world"
    ∧ appears_to_be_french "hello world" = false
    ∧ (translate_descriptions
        ⟨"tvshow", [⟨"title", some "T"⟩, ⟨"plot", some "hello world"⟩]⟩
        (fun s => some s)).2 = true
    ∧ (process_episode_nfo { translate_episodes := true } (some (fun s => some s)) none
        (.wellFormed ⟨"episodedetails", [⟨"plot", some "hello world"⟩]⟩)).changed = false := by
  have h := translation_writeback_asymmetry (fun s => some s) "hello world"
    (by decide) (by decide) (by decide) rfl
  exact ⟨by decide, by decide, by decide, by rw [h.1], by rw [h.2]⟩

/-! ### Document-model lemmas -/

/-- Appending a child with the tag extends the tag's text list. -/
theorem find_all_texts_append_same (d : XDoc) (tag : String) (s : Option String) :
    find_all_texts (append_child d tag s) tag = find_all_texts d tag ++ [s] := by
  simp [find_all_texts, append_child, List.filter_append]

/-- Appending a child with another tag leaves a tag's text list alone. -/
theorem find_all_texts_append_ne (d : XDoc) (tag tag2 : String) (s : Option String)
    (h : tag ≠ tag2) :
    find_all_texts (append_child d tag s) tag2 = find_all_texts d tag2 := by
  simp [find_all_texts, append_child, List.filter_append, h]

/-- Removing every child with the tag empties the tag's text list. -/
theorem find_all_texts_remove_all_same (d : XDoc) (tag : String) :
    find_all_texts (remove_all d tag) tag = [] := by
  unfold find_all_texts remove_all
  rw [List.filter_filter]
  rw [List.filter_eq_nil_iff.2 (fun e _ => by by_cases h : e.tag = tag <;> simp [h])]
  rfl

/-- Removing children of another tag leaves a tag's text list alone. -/
theorem find_all_texts_remove_all_ne (d : XDoc) (tag tag2 : String) (h : tag ≠ tag2) :
    find_all_texts (remove_all d tag) tag2 = find_all_texts d tag2 := by
  unfold find_all_texts remove_all
  rw [List.filter_filter]
  congr 1
  apply List.filter_congr
  intro e _
  by_cases h2 : e.tag = tag2
  · simp [h2, Ne.symm h]
  · simp [h2]

/-- Retexting the first child of another tag leaves a tag's text list
alone. -/
theorem find_all_texts_set_first_ne (d : XDoc) (tag tag2 : String) (s : Option String)
    (h : tag ≠ tag2) :
    find_all_texts (set_first_text d tag s) tag2 = find_all_texts d tag2 := by
  unfold find_all_texts set_first_text
  show ((set_first_text.go tag s d.children).filter _).map _ = _
  induction d.children with
  | nil => rfl
  | cons e rest ih =>
    by_cases he : e.tag = tag
    · have h2 : e.tag ≠ tag2 := by rw [he]; exact h
      simp [set_first_text.go, he, h2, h]
    · by_cases h2 : e.tag = tag2
      · simp [set_first_text.go, he, h2, Ne.symm h, ih]
      · simp [set_first_text.go, he, h2, Ne.symm h, ih]

/-- Adding named children of the tag appends exactly the truthy names. -/
theorem find_all_texts_add_named_same (entries : List NamedEntry) :
    ∀ (d : XDoc) (tag : String),
    find_all_texts (add_named_children d tag entries) tag
      = find_all_texts d tag ++ (entries.filterMap truthy_name).map some := by
  induction entries with
  | nil => intro d tag; simp [add_named_children]
  | cons g gs ih =>
    intro d tag
    unfold add_named_children
    rcases hg : truthy_name g with _ | n
    · simp only [List.foldl_cons, hg]
      rw [show (gs.foldl _ d) = add_named_children d tag gs from rfl, ih]
      simp [hg]
    · simp only [List.foldl_cons, hg]
      rw [show (gs.foldl _ (append_child d tag (some n))) =
        add_named_children (append_child d tag (some n)) tag gs from rfl, ih]
      rw [find_all_texts_append_same]
      simp [hg]

/-- Adding named children of another tag leaves a tag's text list alone. -/
theorem find_all_texts_add_named_ne (entries : List NamedEntry) :
    ∀ (d : XDoc) (tag tag2 : String), tag ≠ tag2 →
    find_all_texts (add_named_children d tag entries) tag2 = find_all_texts d tag2 := by
  induction entries with
  | nil => intro d tag tag2 _; simp [add_named_children]
  | cons g gs ih =>
    intro d tag tag2 h
    unfold add_named_children
    rcases hg : truthy_name g with _ | n
    · simp only [List.foldl_cons, hg]
      exact ih d tag tag2 h
    · simp only [List.foldl_cons, hg]
      rw [show (gs.foldl _ (append_child d tag (some n))) =
        add_named_children (append_child d tag (some n)) tag gs from rfl]
      rw [ih _ tag tag2 h, find_all_texts_append_ne _ _ _ _ h]

/-- Appending a child with another tag does not change what find returns
for a tag. -/
theorem xfind_append_ne (d : XDoc) (tag tag2 : String) (s : Option String) (h : tag ≠ tag2) :
    xfind (append_child d tag s) tag2 = xfind d tag2 := by
  simp [xfind, append_child, List.find?_append, h]

/-- When find already succeeds, appending any child keeps its result. -/
theorem xfind_append_of_some (d : XDoc) (tag tag2 : String) (s : Option String) (e : XElem)
    (h : xfind d tag2 = some e) :
    xfind (append_child d tag s) tag2 = some e := by
  unfold xfind at h ⊢
  unfold append_child
  rw [List.find?_append, h]
  rfl

/-- When find fails, appending a child with the tag makes find return it. -/
theorem xfind_append_of_none (d : XDoc) (tag : String) (s : Option String)
    (h : xfind d tag = none) :
    xfind (append_child d tag s) tag = some ⟨tag, s⟩ := by
  unfold xfind at h ⊢
  unfold append_child
  rw [List.find?_append, h]
  simp

/-- Removing children of another tag does not change what find returns. -/
theorem xfind_remove_all_ne (d : XDoc) (tag tag2 : String) (h : tag ≠ tag2) :
    xfind (remove_all d tag) tag2 = xfind d tag2 := by
  show (d.children.filter (fun e => !(e.tag == tag))).find? (fun e => e.tag == tag2)
    = d.children.find? (fun e => e.tag == tag2)
  induction d.children with
  | nil => rfl
  | cons e rest ih =>
    by_cases h3 : e.tag = tag
    · have h2 : e.tag ≠ tag2 := by rw [h3]; exact h
      rw [List.filter_cons_of_neg (by simp [h3])]
      rw [List.find?_cons_of_neg _ (by simp [h2])]
      exact ih
    · rw [List.filter_cons_of_pos (by simp [h3])]
      by_cases h2 : e.tag = tag2
      · rw [List.find?_cons_of_pos _ (by simp [h2]), List.find?_cons_of_pos _ (by simp [h2])]
      · rw [List.find?_cons_of_neg _ (by simp [h2]), List.find?_cons_of_neg _ (by simp [h2])]
        exact ih

/-- Retexting the first child of another tag does not change what find
returns for a tag. -/
theorem xfind_set_first_ne (d : XDoc) (tag tag2 : String) (s : Option String)
    (h : tag ≠ tag2) :
    xfind (set_first_text d tag s) tag2 = xfind d tag2 := by
  unfold xfind set_first_text
  show (set_first_text.go tag s d.children).find? _ = _
  induction d.children with
  | nil => rfl
  | cons e rest ih =>
    by_cases he : e.tag = tag
    · have h2 : e.tag ≠ tag2 := by rw [he]; exact h
      simp [set_first_text.go, he, h2, h]
    · by_cases h2 : e.tag = tag2
      · simp [set_first_text.go, he, h2, Ne.symm h]
      · simp [set_first_text.go, he, h2, Ne.symm h, ih]

/-- List-level: retexting the first child carrying the tag makes find
return that child with the new text. -/
theorem go_find_same (tag : String) (s : Option String) :
    ∀ (l : List XElem) (e : XElem), l.find? (fun x => x.tag == tag) = some e →
    (set_first_text.go tag s l).find? (fun x => x.tag == tag) = some { e with text := s } := by
  intro l
  induction l with
  | nil => intro e h; simp at h
  | cons x rest ih =>
    intro e h
    by_cases hx : x.tag = tag
    · rw [List.find?_cons_of_pos _ (by simp [hx])] at h
      injection h with h
      subst h
      simp [set_first_text.go, hx]
    · rw [List.find?_cons_of_neg _ (by simp [hx])] at h
      have hgo : set_first_text.go tag s (x :: rest) = x :: set_first_text.go tag s rest := by
        simp [set_first_text.go, hx]
      rw [hgo, List.find?_cons_of_neg _ (by simp [hx])]
      exact ih e h

/-- Retexting the first child carrying the tag makes find return it with
the new text. -/
theorem xfind_set_first_same (d : XDoc) (tag : String) (s : Option String) (e : XElem)
    (h : xfind d tag = some e) :
    xfind (set_first_text d tag s) tag = some { e with text := s } :=
  go_find_same tag s d.children e h

/-- The stored tag set is the truthy elements of the tag text list. -/
theorem tag_text_set_via_texts (d : XDoc) :
    tag_text_set d = ((find_all_texts d "tag").filterMap
      (fun t => match t with
        | some s => if s = "" then none else some s
        | none => none)).toFinset := by
  unfold tag_text_set find_all_texts
  rw [List.filterMap_map]
  rfl

/-- Truthy names are nonempty strings. -/
theorem mem_filterMap_truthy_ne (themes : List NamedEntry) :
    ∀ n ∈ themes.filterMap truthy_name, n ≠ "" := by
  intro n hn
  rw [List.mem_filterMap] at hn
  obtain ⟨t, _, ht⟩ := hn
  obtain ⟨name⟩ := t
  rcases name with _ | s
  · exact absurd ht (by simp [truthy_name])
  · rw [show truthy_name ⟨some s⟩ = (if s = "" then none else some s) from rfl] at ht
    split_ifs at ht with hs
    injection ht with ht
    rw [ht] at hs
    exact hs

/-- Filtering out the empty string keeps a list of nonempty strings. -/
theorem filterMap_keep_nonempty (names : List String) (h : ∀ n ∈ names, n ≠ "") :
    names.filterMap (fun n => if n = "" then none else some n) = names := by
  induction names with
  | nil => rfl
  | cons n ns ih =>
    have hn : ¬ n = "" := h n (by simp)
    simp only [List.filterMap_cons, if_neg hn]
    rw [ih (fun m hm => h m (by simp [hm]))]

/-- After the tag-replacement step the stored tag set is exactly the
fetched truthy theme-name set. -/
theorem tag_text_set_after_replace (d : XDoc) (themes : List NamedEntry) :
    tag_text_set (add_named_children (remove_all d "tag") "tag" themes)
      = theme_name_set themes := by
  rw [tag_text_set_via_texts, find_all_texts_add_named_same, find_all_texts_remove_all_same]
  rw [List.nil_append, List.filterMap_map]
  unfold theme_name_set
  congr 1
  have h := mem_filterMap_truthy_ne themes
  have : ((fun t => match t with
      | some s => if s = "" then none else some s
      | none => none) ∘ some) = fun n : String => if n = "" then none else some n := rfl
  rw [this]
  exact filterMap_keep_nonempty _ h

/-- The stored tag set ignores appended children of other tags. -/
theorem tag_text_set_append_ne (d : XDoc) (tag : String) (s : Option String)
    (h : tag ≠ "tag") :
    tag_text_set (append_child d tag s) = tag_text_set d := by
  rw [tag_text_set_via_texts, tag_text_set_via_texts, find_all_texts_append_ne _ _ _ _ h]

/-- The stored tag set ignores retexting children of other tags. -/
theorem tag_text_set_set_first_ne (d : XDoc) (tag : String) (s : Option String)
    (h : tag ≠ "tag") :
    tag_text_set (set_first_text d tag s) = tag_text_set d := by
  rw [tag_text_set_via_texts, tag_text_set_via_texts, find_all_texts_set_first_ne _ _ _ _ h]

/-! ### Enrichment-step lemmas -/

/-- A non-empty fetched genre list makes the genre block replace the genre
elements with the truthy fetched names and mark changed. -/
theorem genre_step_nonempty (st : XDoc × Bool) (gs : List NamedEntry) (hg : gs ≠ []) :
    (genre_step st gs).2 = true
    ∧ find_all_texts (genre_step st gs).1 "genre" = (gs.filterMap truthy_name).map some := by
  have hgE : gs.isEmpty = false := by
    cases gs
    · exact absurd rfl hg
    · rfl
  unfold genre_step
  simp only [hgE, Bool.false_eq_true, if_false]
  refine ⟨by simp, ?_⟩
  rw [find_all_texts_add_named_same, find_all_texts_remove_all_same, List.nil_append]

/-- The theme block never touches genre elements. -/
theorem tag_step_keeps_genres (st : XDoc × Bool) (th : List NamedEntry) (f : Bool) :
    find_all_texts (tag_step st th f).1 "genre" = find_all_texts st.1 "genre" := by
  unfold tag_step
  split_ifs
  · rfl
  · rfl
  · rw [find_all_texts_add_named_ne _ _ _ _ (by decide),
      find_all_texts_remove_all_ne _ _ _ (by decide)]

/-- The theme block keeps the changed flag set. -/
theorem tag_step_flag (st : XDoc × Bool) (th : List NamedEntry) (f : Bool)
    (h : st.2 = true) : (tag_step st th f).2 = true := by
  unfold tag_step
  split_ifs <;> simp [h]

/-- The trailer block never touches genre elements. -/
theorem trailer_step_keeps_genres (st : XDoc × Bool) (ytid : Option String) (f : Bool) :
    find_all_texts (trailer_step st ytid f).1 "genre" = find_all_texts st.1 "genre" := by
  unfold trailer_step
  rcases ytid with _ | yid
  · rfl
  · rcases hfind : xfind st.1 "trailer" with _ | e
    · simp only [hfind]
      rw [find_all_texts_append_ne _ _ _ _ (by decide)]
    · simp only [hfind]
      split_ifs
      · rfl
      · rw [find_all_texts_set_first_ne _ _ _ _ (by decide)]

/-- The trailer block keeps the changed flag set. -/
theorem trailer_step_flag (st : XDoc × Bool) (ytid : Option String) (f : Bool)
    (h : st.2 = true) : (trailer_step st ytid f).2 = true := by
  unfold trailer_step
  rcases ytid with _ | yid
  · exact h
  · rcases hfind : xfind st.1 "trailer" with _ | e
    · simp only [hfind]
    · simp only [hfind]
      split_ifs <;> simp [h]

/-- With a well-formed rating text and a response in hand,
update_metadata is the four blocks in sequence. -/
theorem update_metadata_unfold (doc : XDoc) (resp : SearchResponse) (ytid : Option String)
    (force : Bool) (anime : AnimeData) (rest : List AnimeData)
    (hok : rating_text_ok doc = true) (hdata : resp.data = anime :: rest) :
    update_metadata doc (some resp) ytid force
      = trailer_step
          (tag_step (genre_step (rating_step doc anime.score force) anime.genres)
            anime.themes force)
          ytid force := by
  unfold update_metadata
  simp only [hok, Bool.not_true, Bool.false_eq_true, if_false, hdata]

/-- C2 (amended): for every show record whose rating text, when present
and non-empty, is a well-formed float literal, whenever the provider
returned a record with a non-empty genre list, _update_metadata replaces
the full stored genre set with the truthy fetched names (in fetched
order) and reports changed = true, with no comparison against the stored
set — even when the stored set is identical to the fetched one. -/
theorem genre_replacement_unconditional (doc : XDoc) (resp : SearchResponse)
    (ytid : Option String) (force : Bool) (anime : AnimeData) (rest : List AnimeData)
    (hok : rating_text_ok doc = true) (hdata : resp.data = anime :: rest)
    (hg : anime.genres ≠ []) :
    (update_metadata doc (some resp) ytid force).2 = true
    ∧ find_all_texts (update_metadata doc (some resp) ytid force).1 "genre"
        = (anime.genres.filterMap truthy_name).map some := by
  rw [update_metadata_unfold doc resp ytid force anime rest hok hdata]
  have hgs := genre_step_nonempty (rating_step doc anime.score force) anime.genres hg
  exact ⟨trailer_step_flag _ _ _ (tag_step_flag _ _ _ hgs.1),
    by rw [trailer_step_keeps_genres, tag_step_keeps_genres, hgs.2]⟩

/-- C2 (counterexample): a record whose stored rating text is not a float
literal makes _update_metadata raise inside has_rating (float raises
ValueError) and return False with the document untouched, although the
fetched genre list is non-empty — so the replacement is not performed for
every show record. -/
theorem genre_unconditional_counterexample :
    is_float_lit "unrated" = false
    ∧ rating_text_ok c2_bad_doc = false
    ∧ update_metadata c2_bad_doc (some c2_resp) none false = (c2_bad_doc, false)
    ∧ find_all_texts c2_bad_doc "genre" = [some "Action"] := by
  exact ⟨by decide, by decide, by decide, by decide⟩

/-- Witness for C2's amended theorem on the specification's own scenario:
stored genre set Action, Drama and an identical fetched set still yield
changed = true. -/
theorem genre_replacement_unconditional_witness :
    rating_text_ok c2_doc = true
    ∧ c2_resp_same.data
        = (⟨none, [⟨some "Action"⟩, ⟨some "Drama"⟩], []⟩ : AnimeData) :: []
    ∧ (update_metadata c2_doc (some c2_resp_same) none false).2 = true
    ∧ find_all_texts (update_metadata c2_doc (some c2_resp_same) none false).1 "genre"
        = [some "Action", some "Drama"] := by
  have h := genre_replacement_unconditional c2_doc c2_resp_same none false
    ⟨none, [⟨some "Action"⟩, ⟨some "Drama"⟩], []⟩ [] (by decide) rfl (by decide)
  refine ⟨by decide, rfl, h.1, ?_⟩
  rw [h.2]
  decide

/-! ### Second-run stability of the enrichment blocks -/

/-- Adding named children of one tag does not change what find returns
for another tag. -/
theorem xfind_add_named_ne (entries : List NamedEntry) :
    ∀ (d : XDoc) (tag tag2 : String), tag ≠ tag2 →
    xfind (add_named_children d tag entries) tag2 = xfind d tag2 := by
  induction entries with
  | nil => intro d tag tag2 _; rfl
  | cons g gs ih =>
    intro d tag tag2 h
    unfold add_named_children
    rcases hg : truthy_name g with _ | n
    · simp only [List.foldl_cons, hg]
      exact ih d tag tag2 h
    · simp only [List.foldl_cons, hg]
      rw [show (gs.foldl _ (append_child d tag (some n))) =
        add_named_children (append_child d tag (some n)) tag gs from rfl]
      rw [ih _ tag tag2 h, xfind_append_ne _ _ _ _ h]

/-- The stored tag set ignores added children of other tags. -/
theorem tag_text_set_add_named_ne (entries : List NamedEntry) (d : XDoc) (tag : String)
    (h : tag ≠ "tag") :
    tag_text_set (add_named_children d tag entries) = tag_text_set d := by
  rw [tag_text_set_via_texts, tag_text_set_via_texts,
    find_all_texts_add_named_ne _ _ _ _ h]

/-- The rating block does not change what find returns for other tags. -/
theorem rating_step_keeps_xfind (doc : XDoc) (score : Option String) (f : Bool)
    (tag2 : String) (h : tag2 ≠ "rating") :
    xfind (rating_step doc score f).1 tag2 = xfind doc tag2 := by
  unfold rating_step
  rcases score with _ | str
  · rfl
  · rcases hfind : xfind doc "rating" with _ | e
    · simp only [hfind]
      rw [xfind_append_ne _ _ _ _ (Ne.symm h)]
    · simp only [hfind]
      split_ifs
      · rfl
      · rw [xfind_set_first_ne _ _ _ _ (Ne.symm h)]

/-- The genre block does not change what find returns for other tags. -/
theorem genre_step_keeps_xfind (st : XDoc × Bool) (gs : List NamedEntry)
    (tag2 : String) (h : tag2 ≠ "genre") :
    xfind (genre_step st gs).1 tag2 = xfind st.1 tag2 := by
  unfold genre_step
  split_ifs
  · rfl
  · rw [xfind_add_named_ne _ _ _ _ (Ne.symm h), xfind_remove_all_ne _ _ _ (Ne.symm h)]

/-- The theme block does not change what find returns for other tags. -/
theorem tag_step_keeps_xfind (st : XDoc × Bool) (th : List NamedEntry) (f : Bool)
    (tag2 : String) (h : tag2 ≠ "tag") :
    xfind (tag_step st th f).1 tag2 = xfind st.1 tag2 := by
  unfold tag_step
  split_ifs
  · rfl
  · rfl
  · rw [xfind_add_named_ne _ _ _ _ (Ne.symm h), xfind_remove_all_ne _ _ _ (Ne.symm h)]

/-- The trailer block does not change what find returns for other tags. -/
theorem trailer_step_keeps_xfind (st : XDoc × Bool) (ytid : Option String) (f : Bool)
    (tag2 : String) (h : tag2 ≠ "trailer") :
    xfind (trailer_step st ytid f).1 tag2 = xfind st.1 tag2 := by
  unfold trailer_step
  rcases ytid with _ | yid
  · rfl
  · rcases hfind : xfind st.1 "trailer" with _ | e
    · simp only [hfind]
      rw [xfind_append_ne _ _ _ _ (Ne.symm h)]
    · simp only [hfind]
      split_ifs
      · rfl
      · rw [xfind_set_first_ne _ _ _ _ (Ne.symm h)]

/-- The rating block does not change the stored tag set. -/
theorem rating_step_keeps_tagset (doc : XDoc) (score : Option String) (f : Bool) :
    tag_text_set (rating_step doc score f).1 = tag_text_set doc := by
  unfold rating_step
  rcases score with _ | str
  · rfl
  · rcases hfind : xfind doc "rating" with _ | e
    · simp only [hfind]
      rw [tag_text_set_append_ne _ _ _ (by decide)]
    · simp only [hfind]
      split_ifs
      · rfl
      · rw [tag_text_set_set_first_ne _ _ _ (by decide)]

/-- The genre block does not change the stored tag set. -/
theorem genre_step_keeps_tagset (st : XDoc × Bool) (gs : List NamedEntry) :
    tag_text_set (genre_step st gs).1 = tag_text_set st.1 := by
  unfold genre_step
  split_ifs
  · rfl
  · rw [tag_text_set_add_named_ne _ _ _ (by decide)]
    rw [tag_text_set_via_texts, tag_text_set_via_texts,
      find_all_texts_remove_all_ne _ _ _ (by decide)]

/-- The trailer block does not change the stored tag set. -/
theorem trailer_step_keeps_tagset (st : XDoc × Bool) (ytid : Option String) (f : Bool) :
    tag_text_set (trailer_step st ytid f).1 = tag_text_set st.1 := by
  unfold trailer_step
  rcases ytid with _ | yid
  · rfl
  · rcases hfind : xfind st.1 "trailer" with _ | e
    · simp only [hfind]
      rw [tag_text_set_append_ne _ _ _ (by decide)]
    · simp only [hfind]
      split_ifs
      · rfl
      · rw [tag_text_set_set_first_ne _ _ _ (by decide)]

/-- After the rating block with a truthy score, the first rating element
carries str(score). -/
theorem rating_step_establishes (doc : XDoc) (f : Bool) (str : String) :
    ∃ er, xfind (rating_step doc (some str) f).1 "rating" = some er
      ∧ er.text = some str := by
  unfold rating_step
  rcases hfind : xfind doc "rating" with _ | e
  · simp only [hfind]
    exact ⟨⟨"rating", some str⟩, xfind_append_of_none doc "rating" (some str) hfind, rfl⟩
  · simp only [hfind]
    split_ifs with hc
    · exact ⟨e, hfind, hc.1⟩
    · exact ⟨{ e with text := some str }, xfind_set_first_same doc "rating" (some str) e hfind,
        rfl⟩

/-- After the theme block with a non-empty fetched theme list, the stored
tag set equals the fetched name set. -/
theorem tag_step_establishes (st : XDoc × Bool) (th : List NamedEntry) (f : Bool)
    (hth : th.isEmpty = false) :
    tag_text_set (tag_step st th f).1 = theme_name_set th := by
  unfold tag_step
  simp only [hth, Bool.false_eq_true, if_false]
  split_ifs with hc
  · exact hc.1
  · exact tag_text_set_after_replace _ _

/-- After the trailer block with a resolved id, the first trailer element
carries the plugin URI. -/
theorem trailer_step_establishes (st : XDoc × Bool) (f : Bool) (yid : String) :
    ∃ et, xfind (trailer_step st (some yid) f).1 "trailer" = some et
      ∧ et.text = some ("plugin://plugin.video.youtube/play/?video_id=" ++ yid) := by
  unfold trailer_step
  rcases hfind : xfind st.1 "trailer" with _ | e
  · simp only [hfind]
    exact ⟨⟨"trailer", some ("plugin://plugin.video.youtube/play/?video_id=" ++ yid)⟩,
      xfind_append_of_none _ _ _ hfind, rfl⟩
  · simp only [hfind]
    split_ifs with hc
    · exact ⟨e, hfind, hc.1⟩
    · exact ⟨{ e with text := some ("plugin://plugin.video.youtube/play/?video_id=" ++ yid) },
        xfind_set_first_same _ _ _ e hfind, rfl⟩

/-- Without force-update, a rating already equal to str(score) is left
alone. -/
theorem rating_step_stable (doc : XDoc) (score : Option String)
    (h : ∀ str, score = some str →
      ∃ er, xfind doc "rating" = some er ∧ er.text = some str) :
    rating_step doc score false = (doc, false) := by
  rcases score with _ | str
  · rfl
  · obtain ⟨er, h1, h2⟩ := h str rfl
    unfold rating_step
    simp only [h1]
    rw [if_pos ⟨h2, by decide⟩]

/-- Without force-update, a stored tag set already equal to the fetched
name set is left alone. -/
theorem tag_step_stable (st : XDoc × Bool) (th : List NamedEntry)
    (h : th.isEmpty = false → tag_text_set st.1 = theme_name_set th) :
    tag_step st th false = st := by
  unfold tag_step
  by_cases hth : th.isEmpty
  · rw [if_pos hth]
  · rw [if_neg hth, if_pos ⟨h (by simpa using hth), by decide⟩]

/-- Without force-update, a stored trailer already equal to the plugin
URI is left alone. -/
theorem trailer_step_stable (st : XDoc × Bool) (ytid : Option String)
    (h : ∀ yid, ytid = some yid →
      ∃ et, xfind st.1 "trailer" = some et
        ∧ et.text = some ("plugin://plugin.video.youtube/play/?video_id=" ++ yid)) :
    trailer_step st ytid false = st := by
  rcases ytid with _ | yid
  · rfl
  · obtain ⟨et, h1, h2⟩ := h yid rfl
    unfold trailer_step
    simp only [h1]
    rw [if_pos ⟨h2, by decide⟩]

/-- A rating text float() rejects makes _update_metadata return unchanged. -/
theorem update_metadata_not_ok (doc : XDoc) (resp : Option SearchResponse)
    (ytid : Option String) (f : Bool) (h : rating_text_ok doc = false) :
    update_metadata doc resp ytid f = (doc, false) := by
  unfold update_metadata
  rw [h]
  rfl

/-- A missing search response makes _update_metadata return unchanged. -/
theorem update_metadata_none (doc : XDoc) (ytid : Option String) (f : Bool)
    (h : rating_text_ok doc = true) :
    update_metadata doc none ytid f = (doc, false) := by
  unfold update_metadata
  rw [h]
  rfl

/-- An empty data list makes _update_metadata return unchanged. -/
theorem update_metadata_empty_data (doc : XDoc) (resp : SearchResponse)
    (ytid : Option String) (f : Bool) (h : rating_text_ok doc = true)
    (hd : resp.data = []) :
    update_metadata doc (some resp) ytid f = (doc, false) := by
  unfold update_metadata
  simp only [h, Bool.not_true, Bool.false_eq_true, if_false, hd]

/-- _update_metadata does not change what find returns for tags outside
rating, genre, tag and trailer (in particular the title). -/
theorem update_metadata_keeps_xfind (doc : XDoc) (resp : Option SearchResponse)
    (ytid : Option String) (f : Bool) (tag2 : String)
    (h1 : tag2 ≠ "rating") (h2 : tag2 ≠ "genre") (h3 : tag2 ≠ "tag")
    (h4 : tag2 ≠ "trailer") :
    xfind (update_metadata doc resp ytid f).1 tag2 = xfind doc tag2 := by
  unfold update_metadata
  split_ifs
  · rfl
  · rcases resp with _ | r
    · rfl
    · rcases hdata : r.data with _ | ⟨anime, rest⟩
      · simp only [hdata]
      · simp only [hdata]
        rw [trailer_step_keeps_xfind _ _ _ _ h4, tag_step_keeps_xfind _ _ _ _ h3,
          genre_step_keeps_xfind _ _ _ h2, rating_step_keeps_xfind _ _ _ _ h1]

/-- Core of C1's amended statement: with force-update unset and the
fetched genre list empty, a second _update_metadata run on the document
the first run produced changes nothing and reports changed = false. -/
theorem update_metadata_second_run (doc : XDoc) (resp : Option SearchResponse)
    (ytid : Option String)
    (hg : ∀ r anime rest, resp = some r → r.data = anime :: rest → anime.genres = []) :
    update_metadata (update_metadata doc resp ytid false).1 resp ytid false
      = ((update_metadata doc resp ytid false).1, false) := by
  rcases hok : rating_text_ok doc with _ | _
  · rw [update_metadata_not_ok doc resp ytid false hok]
    exact update_metadata_not_ok doc resp ytid false hok
  · rcases resp with _ | r
    · rw [update_metadata_none doc ytid false hok]
      exact update_metadata_none doc ytid false hok
    · rcases hdata : r.data with _ | ⟨anime, rest⟩
      · rw [update_metadata_empty_data doc r ytid false hok hdata]
        exact update_metadata_empty_data doc r ytid false hok hdata
      · have hge : anime.genres = [] := hg r anime rest rfl hdata
        rw [update_metadata_unfold doc r ytid false anime rest hok hdata]
        have hgenre : genre_step (rating_step doc anime.score false) anime.genres
            = rating_step doc anime.score false := by rw [hge]; rfl
        rw [hgenre]
        rcases hok1 : rating_text_ok
            (trailer_step (tag_step (rating_step doc anime.score false) anime.themes false)
              ytid false).1 with _ | _
        · exact update_metadata_not_ok _ _ _ _ hok1
        · rw [update_metadata_unfold _ r ytid false anime rest hok1 hdata]
          have hR : ∀ str, anime.score = some str →
              ∃ er, xfind (trailer_step (tag_step (rating_step doc anime.score false)
                  anime.themes false) ytid false).1 "rating" = some er
                ∧ er.text = some str := by
            intro str hs
            obtain ⟨er, hf, ht⟩ := rating_step_establishes doc false str
            rw [← hs] at hf
            exact ⟨er, by
              rw [trailer_step_keeps_xfind _ _ _ _ (by decide),
                tag_step_keeps_xfind _ _ _ _ (by decide)]
              exact hf, ht⟩
          have e1 := rating_step_stable _ anime.score hR
          rw [e1]
          have e2 : genre_step
              ((trailer_step (tag_step (rating_step doc anime.score false) anime.themes false)
                ytid false).1, false) anime.genres
              = ((trailer_step (tag_step (rating_step doc anime.score false) anime.themes false)
                ytid false).1, false) := by rw [hge]; rfl
          rw [e2]
          have hT : anime.themes.isEmpty = false →
              tag_text_set (trailer_step (tag_step (rating_step doc anime.score false)
                anime.themes false) ytid false).1 = theme_name_set anime.themes := by
            intro hth
            rw [trailer_step_keeps_tagset]
            exact tag_step_establishes _ _ _ hth
          have e3 := tag_step_stable ((trailer_step (tag_step (rating_step doc anime.score false)
            anime.themes false) ytid false).1, false) anime.themes hT
          rw [e3]
          have hY : ∀ yid, ytid = some yid →
              ∃ et, xfind (trailer_step (tag_step (rating_step doc anime.score false)
                  anime.themes false) ytid false).1 "trailer" = some et
                ∧ et.text = some ("plugin://plugin.video.youtube/play/?video_id=" ++ yid) := by
            intro yid hy
            rw [hy]
            exact trailer_step_establishes _ false yid
          exact trailer_step_stable _ ytid hY

/-- C1 (amended): with force-update unset, translation disabled by
skip-translate, and provider responses whose fetched genre list is empty,
running process_nfo_file twice with identical provider responses yields
changed = false on the second run, and the file — hence its serialized
bytes — is identical after the two runs (the second run issues no
write).  With a non-empty fetched genre list the second run still reports
changed = true (see the counterexample), though the rewritten document is
value-identical. -/
theorem enrich_series_idempotent (opts : Options)
    (jik : String → Option SearchResponse) (tr : Option (String → Option String))
    (yt : String → Option String) (file : NfoFile)
    (hforce : opts.force_update = false) (hskip : opts.skip_translate = true)
    (hg : ∀ s r anime rest, jik s = some r → r.data = anime :: rest → anime.genres = []) :
    (process_nfo_file opts jik tr yt (process_nfo_file opts jik tr yt file).file).changed
        = false
    ∧ (process_nfo_file opts jik tr yt (process_nfo_file opts jik tr yt file).file).file
        = (process_nfo_file opts jik tr yt file).file
    ∧ nfo_bytes
        (process_nfo_file opts jik tr yt (process_nfo_file opts jik tr yt file).file).file
        = nfo_bytes (process_nfo_file opts jik tr yt file).file := by
  have main : (process_nfo_file opts jik tr yt
        (process_nfo_file opts jik tr yt file).file).changed = false
      ∧ (process_nfo_file opts jik tr yt (process_nfo_file opts jik tr yt file).file).file
        = (process_nfo_file opts jik tr yt file).file := by
    rcases file with raw | doc
    · exact ⟨rfl, rfl⟩
    · rcases hti : xfind doc "title" with _ | te
      · have h1 : process_nfo_file opts jik tr yt (.wellFormed doc)
            = ⟨.wellFormed doc, false, false, false⟩ := by
          unfold process_nfo_file
          simp only [hti]
        simp [h1]
      · rcases htx : te.text with _ | ttxt
        · have h1 : process_nfo_file opts jik tr yt (.wellFormed doc)
              = ⟨.wellFormed doc, false, false, false⟩ := by
            unfold process_nfo_file
            simp only [hti, htx]
          simp [h1]
        · by_cases hemp : ttxt = ""
          · have h1 : process_nfo_file opts jik tr yt (.wellFormed doc)
                = ⟨.wellFormed doc, false, false, false⟩ := by
              unfold process_nfo_file
              simp only [hti, htx, hemp, if_true]
            simp [h1]
          · by_cases hto : opts.translate_only = true
            · have h1 : process_nfo_file opts jik tr yt (.wellFormed doc)
                  = ⟨.wellFormed doc, false, false, true⟩ := by
                unfold process_nfo_file
                simp only [hti, htx, if_neg hemp, hto, if_true, hskip]
                rcases tr with _ | oracle <;> simp
              simp [h1]
            · have hto2 : opts.translate_only = false := by
                rcases h : opts.translate_only with _ | _
                · rfl
                · exact absurd h hto
              have hrun : ∀ d : XDoc, xfind d "title" = some te →
                  process_nfo_file opts jik tr yt (.wellFormed d)
                    = ⟨.wellFormed (update_metadata d
                          (search_anime jik (pyStrip ttxt)) (yt (pyStrip ttxt)) false).1,
                        (update_metadata d (search_anime jik (pyStrip ttxt))
                          (yt (pyStrip ttxt)) false).2
                        || (update_metadata d (search_anime jik (pyStrip ttxt))
                          (yt (pyStrip ttxt)) false).2,
                        false, true⟩ := by
                intro d hd
                unfold process_nfo_file
                simp only [hd, htx, if_neg hemp, hto2, Bool.false_eq_true, if_false, hforce,
                  hskip]
                rcases tr with _ | oracle <;> simp
              have h1 := hrun doc hti
              have hti2 : xfind (update_metadata doc (search_anime jik (pyStrip ttxt))
                  (yt (pyStrip ttxt)) false).1 "title" = some te := by
                rw [update_metadata_keeps_xfind _ _ _ _ _ (by decide) (by decide) (by decide)
                  (by decide)]
                exact hti
              have h2 := hrun _ hti2
              have hsec := update_metadata_second_run doc
                (search_anime jik (pyStrip ttxt)) (yt (pyStrip ttxt))
                (fun r anime rest hr hd => hg (clean_title_for_api (pyStrip ttxt)) r anime rest
                  hr hd)
              rw [h1]
              simp only []
              rw [h2, hsec]
              exact ⟨rfl, rfl⟩
  exact ⟨main.1, main.2, by rw [main.2]⟩

/-- C1 (counterexample): a record whose provider response carries a
non-empty genre list makes the second enrichment run report
changed = true again (the genre block replaces unconditionally), even
though the document value — hence the serialized bytes — is unchanged, so
the idempotence claim fails as stated. -/
theorem enrich_idempotence_counterexample :
    (process_nfo_file {} (fun _ => some c1_resp) none (fun _ => none)
        (.wellFormed c1_doc)).changed = true
    ∧ (process_nfo_file {} (fun _ => some c1_resp) none (fun _ => none)
        (process_nfo_file {} (fun _ => some c1_resp) none (fun _ => none)
          (.wellFormed c1_doc)).file).changed = true
    ∧ (process_nfo_file {} (fun _ => some c1_resp) none (fun _ => none)
        (process_nfo_file {} (fun _ => some c1_resp) none (fun _ => none)
          (.wellFormed c1_doc)).file).file
      = (process_nfo_file {} (fun _ => some c1_resp) none (fun _ => none)
          (.wellFormed c1_doc)).file := by
  exact ⟨by decide, by decide, by decide⟩

/-- Witness for C1's amended theorem on a concrete record, with a score,
a theme and a trailer id but no fetched genres. -/
theorem enrich_series_idempotent_witness :
    ({ skip_translate := true } : Options).force_update = false
    ∧ ({ skip_translate := true } : Options).skip_translate = true
    ∧ (∀ s r anime rest, (fun _ : String => some c1w_resp) s = some r →
        r.data = anime :: rest → anime.genres = [])
    ∧ (process_nfo_file { skip_translate := true } (fun _ => some c1w_resp) none
        (fun _ => some "abc")
        (process_nfo_file { skip_translate := true } (fun _ => some c1w_resp) none
          (fun _ => some "abc") (.wellFormed c1_doc)).file).changed = false := by
  have hg : ∀ s r anime rest, (fun _ : String => some c1w_resp) s = some r →
      r.data = anime :: rest → anime.genres = [] := by
    intro s r anime rest h1 h2
    injection h1 with h1
    subst h1
    rw [show c1w_resp.data = [⟨some "7.5", [], [⟨some "School"⟩]⟩] from rfl] at h2
    injection h2 with ha hr
    rw [← ha]
  have h := enrich_series_idempotent { skip_translate := true } (fun _ => some c1w_resp) none
    (fun _ => some "abc") (.wellFormed c1_doc) rfl rfl hg
  exact ⟨rfl, rfl, hg, h.1⟩

/-- C6: over the five-folder batch whose third root record is malformed
while the others are well-formed and need no provider data, the windowed
run is a total function that reaches its final statistics (the summary):
it reports exactly 1 error and 4 successfully processed files over 5
processed folders, and leaves every file — in particular the malformed
third one, byte for byte — exactly as it was. -/
theorem failure_isolation :
    (process_with_folder_limits {} (fun _ => none) none (fun _ => none) c6_folders 0 5).2
      = ⟨4, 1, 5, 0, 0⟩
    ∧ (process_with_folder_limits {} (fun _ => none) none (fun _ => none) c6_folders 0 5).1
      = c6_folders
    ∧ (process_with_folder_limits {} (fun _ => none) none (fun _ => none)
        c6_folders 0 5).1.get? 2 = some (.malformed "<tvshow><title>C</tvshow")
    ∧ nfo_bytes (((process_with_folder_limits {} (fun _ => none) none (fun _ => none)
        c6_folders 0 5).1.getD 2 (.malformed "")))
      = "<tvshow><title>C</tvshow" := by
  exact ⟨by decide, by decide, by decide, by decide⟩

/-! ### The rate-gate schedule -/

/-- Length of a block history. -/
theorem block_list_length (q : ℕ) : ∀ k, (block_list q k).length = k := by
  intro k
  induction k with
  | zero => rfl
  | succ k ih =>
    rw [show block_list q (k+1) = block_list q k ++ [block_base q + (k:ℚ)/3] from rfl]
    simp [ih]

/-- A nonzero block history is nonempty. -/
theorem block_list_ne_nil (q k : ℕ) (hk : 0 < k) : block_list q k ≠ [] := by
  intro h
  have hl := block_list_length q k
  rw [h] at hl
  simp at hl
  omega

/-- Members of a block history are base plus j thirds for some j below k. -/
theorem mem_block_list {q k : ℕ} {x : ℚ} (hx : x ∈ block_list q k) :
    ∃ j, j < k ∧ x = block_base q + (j:ℚ)/3 := by
  induction k with
  | zero => simp [block_list] at hx
  | succ k ih =>
    rw [show block_list q (k+1) = block_list q k ++ [block_base q + (k:ℚ)/3] from rfl,
      List.mem_append] at hx
    rcases hx with h | h
    · obtain ⟨j, hj, he⟩ := ih h
      exact ⟨j, by omega, he⟩
    · rw [List.mem_singleton] at h
      exact ⟨k, by omega, h⟩

/-- Python min distributes over appending one element to a nonempty
list. -/
theorem pymin_append (l : List ℚ) (x : ℚ) (hl : l ≠ []) :
    pymin (l ++ [x]) = min (pymin l) x := by
  rcases l with _ | ⟨h, t⟩
  · exact absurd rfl hl
  · show List.foldl min h (t ++ [x]) = min (List.foldl min h t) x
    rw [List.foldl_append]
    rfl

/-- The oldest entry of a nonzero block history is the block base. -/
theorem pymin_block_list (q : ℕ) : ∀ k, k ≠ 0 → pymin (block_list q k) = block_base q := by
  intro k
  induction k with
  | zero => intro h; exact absurd rfl h
  | succ k ih =>
    intro _
    rcases Nat.eq_zero_or_pos k with rfl | hk
    · show pymin [block_base q + ((0:ℕ):ℚ)/3] = _
      norm_num [pymin]
    · rw [show block_list q (k+1) = block_list q k ++ [block_base q + (k:ℚ)/3] from rfl]
      rw [pymin_append _ _ (block_list_ne_nil q k hk)]
      rw [ih (by omega)]
      exact min_eq_left (le_add_of_nonneg_right (by positivity))

/-- Python max of a one-element list. -/
theorem pymax_singleton (x : ℚ) : pymax [x] = x := rfl

/-- The gate in the per-second regime: with k+1 calls of the current
block recorded (k at most 58), every entry survives the 60-second prune,
the minute cap is not reached, the last call lies in the trailing third
of a second, and the caller is released exactly one third of a second
after that call. -/
theorem gate_common (q r : ℕ) (hr : r ≤ 58) :
    apply_rate_limits ⟨block_list q (r+1), block_base q + (r:ℚ)/3⟩
      = (block_base q + ((r:ℚ)+1)/3, block_list q (r+1)) := by
  have hA : (block_list q (r+1)).filter
      (fun t => decide (block_base q + (r:ℚ)/3 - t < 60)) = block_list q (r+1) := by
    apply List.filter_eq_self.2
    intro x hx
    obtain ⟨j, hj, rfl⟩ := mem_block_list hx
    simp only [decide_eq_true_eq]
    have hj0 : (0:ℚ) ≤ (j:ℚ) := by positivity
    have hr58 : (r:ℚ) ≤ 58 := by exact_mod_cast hr
    linarith
  have hC : (block_list q (r+1)).filter
      (fun t => decide (block_base q + (r:ℚ)/3 - t < 1 / ((jikan_second_limit : ℕ) : ℚ)))
      = [block_base q + (r:ℚ)/3] := by
    rw [show block_list q (r+1) = block_list q r ++ [block_base q + (r:ℚ)/3] from rfl]
    rw [List.filter_append]
    have h1 : (block_list q r).filter
        (fun t => decide (block_base q + (r:ℚ)/3 - t < 1 / ((jikan_second_limit : ℕ) : ℚ)))
        = [] := by
      apply List.filter_eq_nil_iff.2
      intro x hx
      obtain ⟨j, hj, rfl⟩ := mem_block_list hx
      simp only [decide_eq_true_eq, not_lt, jikan_second_limit]
      have hjr : (j:ℚ) + 1 ≤ (r:ℚ) := by exact_mod_cast hj
      norm_num
      linarith
    rw [h1, List.nil_append]
    have h2 : decide (block_base q + (r:ℚ)/3 - (block_base q + (r:ℚ)/3)
        < 1 / ((jikan_second_limit : ℕ) : ℚ)) = true := by
      simp only [decide_eq_true_eq, jikan_second_limit]
      norm_num
    simp only [List.filter_cons, h2, List.filter_nil, if_true]
  simp only [apply_rate_limits]
  rw [hA, block_list_length]
  rw [if_neg (show ¬ (jikan_minute_limit ≤ r + 1) by simp only [jikan_minute_limit]; omega)]
  rw [hC, pymax_singleton]
  have hz : block_base q + (r:ℚ)/3 - (block_base q + (r:ℚ)/3) = 0 := by ring
  rw [hz, List.isEmpty_cons]
  have hw : (0:ℚ) < 1 / ((jikan_second_limit : ℕ) : ℚ) - 0 := by
    simp only [jikan_second_limit]
    norm_num
  rw [if_neg (by simp), if_pos hw]
  refine Prod.ext ?_ rfl
  show block_base q + (r:ℚ)/3 + (1 / ((jikan_second_limit : ℕ) : ℚ) - 0)
    = block_base q + ((r:ℚ)+1)/3
  simp only [jikan_second_limit]
  push_cast
  ring

/-- The gate in the per-minute regime: with a full block of 60 calls
recorded inside the trailing minute, the gate sleeps
60 - (now - oldest) + 0.1 and clears the history, releasing the caller
60.1 seconds after the block's first call. -/
theorem gate_minute (q : ℕ) :
    apply_rate_limits ⟨block_list q 60, block_base q + (59:ℚ)/3⟩
      = (block_base (q+1), []) := by
  have hA : (block_list q 60).filter
      (fun t => decide (block_base q + (59:ℚ)/3 - t < 60)) = block_list q 60 := by
    apply List.filter_eq_self.2
    intro x hx
    obtain ⟨j, hj, rfl⟩ := mem_block_list hx
    simp only [decide_eq_true_eq]
    have hj0 : (0:ℚ) ≤ (j:ℚ) := by positivity
    linarith
  simp only [apply_rate_limits]
  rw [hA, block_list_length]
  rw [if_pos (show jikan_minute_limit ≤ 60 by simp [jikan_minute_limit])]
  rw [pymin_block_list q 60 (by norm_num)]
  refine Prod.ext ?_ rfl
  show block_base q + (59:ℚ)/3 + (60 - (block_base q + (59:ℚ)/3 - block_base q) + 1/10)
    = block_base (q+1)
  unfold block_base
  push_cast
  ring

/-- The state of the limiter after n+1 back-to-back calls: the request
history holds the current minute-block's calls, and the clock shows the
closed-form timestamp of call n. -/
theorem call_state_invariant : ∀ n : ℕ, call_state (n + 1)
    = ⟨block_list (n / 60) (n % 60 + 1), block_base (n / 60) + ((n % 60 : ℕ) : ℚ)/3⟩ := by
  intro n
  induction n with
  | zero =>
    show (make_request_step ⟨[], 0⟩).1 = _
    unfold make_request_step
    rw [apply_rate_limits_empty]
    show (⟨[(0:ℚ)], 0⟩ : RLState) = _
    congr 1
    · rw [show block_list (0/60) (0%60+1) = [] ++ [block_base 0 + ((0:ℕ):ℚ)/3] from rfl]
      norm_num [block_base]
    · norm_num [block_base]
  | succ n ih =>
    have hstep : call_state (n + 1 + 1) = (make_request_step (call_state (n+1))).1 := rfl
    rw [hstep, ih]
    by_cases hr : n % 60 = 59
    · have h1 : (n+1) % 60 = 0 := by omega
      have h2 : (n+1) / 60 = n / 60 + 1 := by omega
      rw [h1, h2, hr]
      rw [show (59:ℕ) + 1 = 60 by norm_num, show ((59:ℕ):ℚ) = (59:ℚ) by norm_num]
      unfold make_request_step
      rw [gate_minute (n/60)]
      show (⟨[] ++ [block_base (n/60+1)], block_base (n/60+1)⟩ : RLState) = _
      congr 1
      · rw [show block_list (n/60+1) (0+1)
            = [] ++ [block_base (n/60+1) + ((0:ℕ):ℚ)/3] from rfl]
        norm_num
      · norm_num
    · have hlt : n % 60 < 60 := Nat.mod_lt _ (by norm_num)
      have hr' : n % 60 ≤ 58 := by omega
      have h1 : (n+1) % 60 = n % 60 + 1 := by omega
      have h2 : (n+1) / 60 = n / 60 := by omega
      rw [h1, h2]
      unfold make_request_step
      rw [gate_common (n/60) (n%60) hr']
      show (⟨block_list (n/60) (n%60+1) ++ [block_base (n/60) + (((n%60:ℕ):ℚ)+1)/3],
          block_base (n/60) + (((n%60:ℕ):ℚ)+1)/3⟩ : RLState) = _
      congr 1
      · rw [show block_list (n/60) (n%60+1+1) = block_list (n/60) (n%60+1)
            ++ [block_base (n/60) + (((n%60+1 : ℕ)):ℚ)/3] from rfl]
        congr 2
        push_cast
        ring
      · push_cast
        ring

/-- Closed form of the back-to-back call timestamps. -/
theorem call_time_closed (n : ℕ) : call_time n = sched_time n := by
  unfold call_time
  rw [call_state_invariant n]
  rfl

/-- C3 (amended): under the idealized clock, consecutive calls through
the rate gate of the provider configured with per_minute_cap = 60 and
per_second_cap = 3 are spaced at least 1/3 second apart; hence no 4-call
sub-window completes in under 1 second of wall-clock time (a 3-call
sub-window can complete in 2/3 second), and no 61-call window completes
in under 60 seconds (a 60-call window can complete in 59 and 23/30
seconds). -/
theorem rate_gate_spacing :
    (∀ n, 1/3 ≤ call_time (n+1) - call_time n)
    ∧ (∀ n, 1 ≤ call_time (n+3) - call_time n)
    ∧ (∀ n, 60 ≤ call_time (n+60) - call_time n) := by
  have hstep : ∀ n, 1/3 ≤ call_time (n+1) - call_time n := by
    intro n
    rw [call_time_closed, call_time_closed]
    unfold sched_time block_base
    by_cases hr : n % 60 = 59
    · have h1 : (n+1) % 60 = 0 := by omega
      have h2 : (n+1) / 60 = n / 60 + 1 := by omega
      rw [h1, h2, hr]
      push_cast
      ring_nf
      norm_num
    · have hlt : n % 60 < 60 := Nat.mod_lt _ (by norm_num)
      have h1 : (n+1) % 60 = n % 60 + 1 := by omega
      have h2 : (n+1) / 60 = n / 60 := by omega
      rw [h1, h2]
      push_cast
      ring_nf
      norm_num
  have h60 : ∀ n, call_time (n+60) - call_time n = 601/10 := by
    intro n
    rw [call_time_closed, call_time_closed]
    unfold sched_time block_base
    have h1 : (n+60) % 60 = n % 60 := by omega
    have h2 : (n+60) / 60 = n / 60 + 1 := by omega
    rw [h1, h2]
    push_cast
    ring
  refine ⟨hstep, fun n => ?_, fun n => by rw [h60 n]; norm_num⟩
  have a1 := hstep n
  have a2 := hstep (n+1)
  have a3 := hstep (n+2)
  have e2 : n + 1 + 1 = n + 2 := by omega
  have e3 : n + 2 + 1 = n + 3 := by omega
  rw [e2] at a2
  rw [e3] at a3
  linarith

/-- C3 (counterexample): in the idealized schedule the first three calls
complete in 2/3 second (under 1 second), and the 60-call window from call
1 to call 60 completes in 1793/30 seconds (under 60 seconds), so both
parts of the claim fail as stated. -/
theorem rate_compliance_counterexample :
    call_time 2 - call_time 0 = 2/3
    ∧ ¬ (1 ≤ call_time 2 - call_time 0)
    ∧ call_time 60 - call_time 1 = 1793/30
    ∧ ¬ (60 ≤ call_time 60 - call_time 1) := by
  have h0 := call_time_closed 0
  have h1 := call_time_closed 1
  have h2 := call_time_closed 2
  have h60 := call_time_closed 60
  have s0 : sched_time 0 = 0 := by norm_num [sched_time, block_base]
  have s1 : sched_time 1 = 1/3 := by norm_num [sched_time, block_base]
  have s2 : sched_time 2 = 2/3 := by norm_num [sched_time, block_base]
  have s60 : sched_time 60 = 601/10 := by norm_num [sched_time, block_base]
  rw [h0, h1, h2, h60, s0, s1, s2, s60]
  norm_num

end AnimeMeta
